import Mathlib

/-
Verification of the grid-trading and TWAP engines of the pythonTradingBot
repository.  Prices and quantities are embedded as exact rationals; the
exchange gateway is modelled by oracles supplying the response to each
request, so every run of an engine is a pure computation.
-/

namespace TradingBot

/-- Order side, as the strings BUY and SELL are used in the source. -/
inductive Side where
  | BUY : Side
  | SELL : Side
deriving DecidableEq

/-- Metadata the grid engine keeps for one live order: the value stored in
the grid_orders dict of start_grid_trading. -/
structure TrackedOrder where
  side : Side
  price : ℚ
  grid_level : ℕ
  quantity : ℚ
deriving DecidableEq

abbrev OrderId := ℕ

/-- The grid_orders Python dict, modelled as an insertion-ordered
association list (Python dicts iterate in insertion order). -/
abbrev Tracker := List (OrderId × TrackedOrder)

/-- Keys of the tracker, in insertion order (list(grid_orders.keys())). -/
def dictKeys (d : Tracker) : List OrderId := d.map Prod.fst

/-- Dict lookup (grid_orders[order_id]). -/
def dictLookup (d : Tracker) (k : OrderId) : Option TrackedOrder :=
  (d.find? (fun e => e.1 == k)).map Prod.snd

/-- Dict deletion (del grid_orders[order_id]). -/
def dictErase (d : Tracker) (k : OrderId) : Tracker :=
  d.filter (fun e => e.1 != k)

/-- Dict assignment (grid_orders[order_id] = info): overwrites in place if
the key exists, otherwise appends at the end. -/
def dictInsert (d : Tracker) (k : OrderId) (v : TrackedOrder) : Tracker :=
  if d.any (fun e => e.1 == k) then
    d.map (fun e => if e.1 == k then (k, v) else e)
  else d ++ [(k, v)]

/-- Python round-half-to-even of a rational to an integer. -/
def roundHalfEven (q : ℚ) : ℤ :=
  let f : ℤ := ⌊q⌋
  let r : ℚ := q - f
  if r < 1/2 then f
  else if 1/2 < r then f + 1
  else if f % 2 = 0 then f else f + 1

/-- Python round(x, 2): round to two decimal places, ties to even. -/
def round2 (q : ℚ) : ℚ := (roundHalfEven (q * 100) : ℚ) / 100

/-- Python str.upper restricted to ASCII, as used by symbol.upper(). -/
def pyUpper (s : String) : String := ⟨s.data.map Char.toUpper⟩

/-- Python str.isupper: at least one cased character and no lowercase one. -/
def pyIsUpper (s : String) : Bool :=
  s.data.all (fun c => !c.isLower) && s.data.any (fun c => c.isUpper)

/-- Quote currencies accepted by validate_symbol. -/
def valid_quote_suffixes : List String := ["USDT", "BUSD", "USD", "BTC", "ETH"]

/-- validators.validate_symbol: non-empty, at least 6 characters, uppercase,
and ending in one of the accepted quote currencies. -/
def validate_symbol (symbol : String) : Bool :=
  if symbol.data.length < 6 then false
  else if pyIsUpper symbol = false then false
  else valid_quote_suffixes.any (fun q => q.data.isSuffixOf symbol.data)

/-- validators.validate_quantity: strictly positive. -/
def validate_quantity (quantity : ℚ) : Bool := decide (0 < quantity)

/-- validators.validate_price: strictly positive. -/
def validate_price (price : ℚ) : Bool := decide (0 < price)

/-- validators.validate_side: BUY or SELL, case-insensitive. -/
def validate_side (side : String) : Bool :=
  pyUpper side == "BUY" || pyUpper side == "SELL"

/-- Parameters of start_grid_trading (num_grids and the monitor interval
after their int(...) conversion). -/
structure GridParams where
  symbol : String
  quantity_per_grid : ℚ
  lower_bound : ℚ
  upper_bound : ℚ
  num_grids : ℤ
  monitor_interval_seconds : ℤ

/-- The validation prefix of start_grid_trading: true iff every check
passes and the engine proceeds to place the grid. -/
def gridParamsValid (p : GridParams) : Bool :=
  validate_symbol p.symbol && validate_quantity p.quantity_per_grid &&
  validate_price p.lower_bound && validate_price p.upper_bound &&
  decide (p.lower_bound < p.upper_bound) &&
  decide (0 < p.num_grids) && decide (0 < p.monitor_interval_seconds)

/-- grid_step = (upper_bound - lower_bound) / num_grids. -/
def gridStep (p : GridParams) : ℚ :=
  (p.upper_bound - p.lower_bound) / (p.num_grids : ℚ)

/-- The 2*num_grids initial placement attempts of start_grid_trading in
order: num_grids BUY limit orders at round(lower_bound + i*grid_step, 2)
with grid level i, then num_grids SELL limit orders at
round(upper_bound - i*grid_step, 2) with grid level num_grids + i. -/
def initAttempts (p : GridParams) : List TrackedOrder :=
  ((List.range p.num_grids.toNat).map (fun i =>
    ⟨Side.BUY, round2 (p.lower_bound + (i : ℚ) * gridStep p), i,
     p.quantity_per_grid⟩)) ++
  ((List.range p.num_grids.toNat).map (fun i =>
    ⟨Side.SELL, round2 (p.upper_bound - (i : ℚ) * gridStep p),
     p.num_grids.toNat + i, p.quantity_per_grid⟩))

/-- A request issued to the exchange gateway. -/
inductive GatewayCall where
  | createOrder (symbol : String) (side : Side) (orderType : String)
      (quantity : ℚ) (price : Option ℚ)
  | getOpenOrders (symbol : String)
  | cancelOrder (symbol : String) (orderId : OrderId)
deriving DecidableEq

/-- Tracker and placement counters built during initial grid placement. -/
structure InitState where
  grid_orders : Tracker
  total_buy_orders_placed : ℕ
  total_sell_orders_placed : ℕ
deriving DecidableEq

/-- One initial placement attempt: on gateway success (some order id) the
order is tracked and the per-side counter incremented; on failure
(BinanceAPIException, modelled as none) nothing changes and the loop
moves on. -/
def applyInitAttempt (st : InitState) (a : TrackedOrder) (resp : Option OrderId) :
    InitState :=
  match resp with
  | none => st
  | some oid =>
    { grid_orders := dictInsert st.grid_orders oid a,
      total_buy_orders_placed :=
        if a.side = Side.BUY then st.total_buy_orders_placed + 1
        else st.total_buy_orders_placed,
      total_sell_orders_placed :=
        if a.side = Side.SELL then st.total_sell_orders_placed + 1
        else st.total_sell_orders_placed }

/-- Runs the initial placement attempts in order; the oracle env gives the
gateway response to attempt number i. -/
def runInitAux (env : ℕ → Option OrderId) :
    List TrackedOrder → ℕ → InitState → InitState
  | [], _, st => st
  | a :: rest, i, st => runInitAux env rest (i + 1) (applyInitAttempt st a (env i))

/-- The initial grid placement phase of start_grid_trading. -/
def runInit (p : GridParams) (env : ℕ → Option OrderId) : InitState :=
  runInitAux env (initAttempts p) 0 ⟨[], 0, 0⟩

/-- The gateway create-order calls issued during initial placement: one per
attempt, independent of the responses. -/
def initCalls (p : GridParams) : List GatewayCall :=
  (initAttempts p).map (fun a =>
    GatewayCall.createOrder (pyUpper p.symbol) a.side "LIMIT" a.quantity (some a.price))

/-- Mutable state of the grid monitoring loop. -/
structure GridSt where
  grid_orders : Tracker
  total_buy_orders_placed : ℕ
  total_sell_orders_placed : ℕ
  total_buy_fills : ℕ
  total_sell_fills : ℕ
deriving DecidableEq

/-- The mirror order computed for a fill: a BUY at price p mirrors to a
SELL at round(p + grid_step, 2), a SELL to a BUY at
round(p - grid_step, 2), keeping the grid level and quantity. -/
def mirror (p : GridParams) (info : TrackedOrder) : TrackedOrder :=
  match info.side with
  | Side.BUY =>
    ⟨Side.SELL, round2 (info.price + gridStep p), info.grid_level, info.quantity⟩
  | Side.SELL =>
    ⟨Side.BUY, round2 (info.price - gridStep p), info.grid_level, info.quantity⟩

/-- The bound check applied to a replacement price:
new_price < lower_bound or new_price > upper_bound. -/
def outOfBounds (p : GridParams) (price : ℚ) : Bool :=
  decide (price < p.lower_bound) || decide (p.upper_bound < price)

/-- State change performed for a fill before the replacement attempt: the
fill counter of the order's side is incremented and the order is deleted
from the tracker (this happens even when the replacement is skipped). -/
def afterFillRemoval (st : GridSt) (oid : OrderId) (info : TrackedOrder) : GridSt :=
  { st with
    total_buy_fills :=
      if info.side = Side.BUY then st.total_buy_fills + 1 else st.total_buy_fills,
    total_sell_fills :=
      if info.side = Side.SELL then st.total_sell_fills + 1 else st.total_sell_fills,
    grid_orders := dictErase st.grid_orders oid }

/-- The create-order request issued for the mirror of a filled order. -/
def mirrorCall (p : GridParams) (info : TrackedOrder) : GatewayCall :=
  GatewayCall.createOrder (pyUpper p.symbol) (mirror p info).side "LIMIT"
    (mirror p info).quantity (some (mirror p info).price)

/-- Tracks a successfully placed replacement under its new order id and
increments the placed counter of its side. -/
def trackReplacement (st : GridSt) (nid : OrderId) (m : TrackedOrder) : GridSt :=
  { st with
    grid_orders := dictInsert st.grid_orders nid m,
    total_buy_orders_placed :=
      if m.side = Side.BUY then st.total_buy_orders_placed + 1
      else st.total_buy_orders_placed,
    total_sell_orders_placed :=
      if m.side = Side.SELL then st.total_sell_orders_placed + 1
      else st.total_sell_orders_placed }

/-- Processing of one filled order inside a monitoring cycle: increment the
fill counter of its side, delete it from the tracker, compute the mirror
order, skip the replacement if the rounded mirror price is out of bounds,
otherwise issue one create-order call; on success track the replacement
under the new order id, on gateway failure leave the level vacant. -/
def processFill (p : GridParams) (st : GridSt) (oid : OrderId)
    (resp : Option OrderId) : GridSt × List GatewayCall :=
  match dictLookup st.grid_orders oid with
  | none => (st, [])
  | some info =>
    if outOfBounds p (mirror p info).price then (afterFillRemoval st oid info, [])
    else
      match resp with
      | some nid =>
        (trackReplacement (afterFillRemoval st oid info) nid (mirror p info),
         [mirrorCall p info])
      | none => (afterFillRemoval st oid info, [mirrorCall p info])

/-- Processes the filled orders of one cycle in order; place j is the
gateway response to the j-th replacement of the cycle. -/
def processFills (p : GridParams) (place : ℕ → Option OrderId) :
    List OrderId → ℕ → GridSt → GridSt × List GatewayCall
  | [], _, st => (st, [])
  | oid :: rest, j, st =>
    let r1 := processFill p st oid (place j)
    let r2 := processFills p place rest (j + 1) r1.1
    (r2.1, r1.2 ++ r2.2)

/-- One monitoring cycle: fetch the open orders (a gateway failure, modelled
as none, is caught and ends the cycle with no state change); the tracked
ids absent from the open set are treated as filled and processed in
tracker order. -/
def monitorCycle (p : GridParams) (st : GridSt) (fetch : Option (List OrderId))
    (place : ℕ → Option OrderId) : GridSt × List GatewayCall :=
  match fetch with
  | none => (st, [GatewayCall.getOpenOrders p.symbol])
  | some openIds =>
    let filled := (dictKeys st.grid_orders).filter (fun oid => !(openIds.contains oid))
    let r := processFills p place filled 0 st
    (r.1, GatewayCall.getOpenOrders p.symbol :: r.2)

/-- Gateway oracle for a whole grid session: responses to the initial
placements, to each cycle's open-order fetch, to each cycle's replacement
placements, and to the shutdown cancellations. -/
structure GridEnv where
  placeInit : ℕ → Option OrderId
  fetch : ℕ → Option (List OrderId)
  placeRepl : ℕ → ℕ → Option OrderId
  cancelOk : OrderId → Bool

/-- Runs k monitoring cycles starting at cycle number c. -/
def runCyclesFrom (p : GridParams) (env : GridEnv) :
    ℕ → ℕ → GridSt → GridSt × List GatewayCall
  | _, 0, st => (st, [])
  | c, k + 1, st =>
    let r1 := monitorCycle p st (env.fetch c) (env.placeRepl c)
    let r2 := runCyclesFrom p env (c + 1) k r1.1
    (r2.1, r1.2 ++ r2.2)

/-- The shutdown cancellation pass: one cancel request per order still in
the tracker, counting the successful ones; the tracker itself is not
modified by the pass. Returns (cancelled count, cancel calls, tracker). -/
def shutdownPass (p : GridParams) (cancelOk : OrderId → Bool) (d : Tracker) :
    ℕ × List GatewayCall × Tracker :=
  (((dictKeys d).filter cancelOk).length,
   (dictKeys d).map (fun oid => GatewayCall.cancelOrder p.symbol oid),
   d)

/-- The summary dict returned by start_grid_trading. -/
structure GridSummary where
  success : Bool
  cycles : ℕ
  total_buy_orders : ℕ
  total_sell_orders : ℕ
  buy_fills : ℕ
  sell_fills : ℕ
  orders_cancelled : ℕ
  total_trades : ℕ
deriving DecidableEq

/-- The loop state right after initial placement: the populated tracker and
placed counters, zero fills. -/
def initialGridSt (p : GridParams) (env : GridEnv) : GridSt :=
  ⟨(runInit p env.placeInit).grid_orders,
   (runInit p env.placeInit).total_buy_orders_placed,
   (runInit p env.placeInit).total_sell_orders_placed, 0, 0⟩

/-- A whole grid session: validation, initial placement (fatal if zero
orders were placed), k monitoring cycles (the cancellation signal is
observed after k cycles), shutdown cancellation, summary.  Also returns
the full trace of gateway calls issued. -/
def start_grid_trading (p : GridParams) (cycles : ℕ) (env : GridEnv) :
    Option GridSummary × List GatewayCall :=
  if gridParamsValid p = false then (none, [])
  else if (runInit p env.placeInit).grid_orders.length = 0 then (none, initCalls p)
  else
    (some ⟨true, cycles,
           (runCyclesFrom p env 1 cycles (initialGridSt p env)).1.total_buy_orders_placed,
           (runCyclesFrom p env 1 cycles (initialGridSt p env)).1.total_sell_orders_placed,
           (runCyclesFrom p env 1 cycles (initialGridSt p env)).1.total_buy_fills,
           (runCyclesFrom p env 1 cycles (initialGridSt p env)).1.total_sell_fills,
           (shutdownPass p env.cancelOk
             (runCyclesFrom p env 1 cycles (initialGridSt p env)).1.grid_orders).1,
           (runCyclesFrom p env 1 cycles (initialGridSt p env)).1.total_buy_fills +
           (runCyclesFrom p env 1 cycles (initialGridSt p env)).1.total_sell_fills⟩,
     initCalls p ++ (runCyclesFrom p env 1 cycles (initialGridSt p env)).2 ++
       (shutdownPass p env.cancelOk
         (runCyclesFrom p env 1 cycles (initialGridSt p env)).1.grid_orders).2.1)

/-- The engine state after the initial placement and k monitoring cycles
(none if validation failed or no initial order was placed). -/
def sessionStateAfter (p : GridParams) (env : GridEnv) (k : ℕ) : Option GridSt :=
  if gridParamsValid p = false then none
  else if (runInit p env.placeInit).grid_orders.length = 0 then none
  else some (runCyclesFrom p env 1 k (initialGridSt p env)).1

/-- The grid invariant of the spec: the order's price lies in the closed
interval from lower_bound to upper_bound. -/
def priceInBounds (p : GridParams) (t : TrackedOrder) : Prop :=
  p.lower_bound ≤ t.price ∧ t.price ≤ p.upper_bound

/-- Parameters of execute_twap_order (num_orders and interval after their
int(...) conversion). -/
structure TwapParams where
  symbol : String
  side : String
  total_quantity : ℚ
  num_orders : ℤ
  interval_seconds : ℤ

/-- The validation prefix of execute_twap_order. -/
def twapParamsValid (q : TwapParams) : Bool :=
  validate_symbol q.symbol && validate_side q.side &&
  validate_quantity q.total_quantity &&
  decide (0 < q.num_orders) && decide (0 < q.interval_seconds)

/-- chunk_quantity = total_quantity / num_orders, with no remainder
correction. -/
def chunkQuantity (q : TwapParams) : ℚ := q.total_quantity / (q.num_orders : ℚ)

/-- Gateway response to one TWAP market-order chunk. -/
inductive ChunkResp where
  | ok (orderId : OrderId) (executedQty : ℚ) (avgPrice : ℚ)
  | err (code : ℤ) (message : String)
deriving DecidableEq

/-- Record appended to executed_orders for a successful chunk. -/
structure ExecutedOrder where
  chunk_number : ℕ
  order_id : OrderId
  executed_qty : ℚ
  avg_price : ℚ
deriving DecidableEq

/-- Record appended to failed_orders for a failed chunk. -/
structure FailedOrder where
  chunk_number : ℕ
  error_code : ℤ
  error_message : String
deriving DecidableEq

/-- Observable action of the TWAP loop: a market-order submission or a
sleep of interval_seconds. -/
inductive TwapEvent where
  | marketOrder (symbol : String) (side : String) (quantity : ℚ)
  | sleepInterval (seconds : ℤ)
deriving DecidableEq

/-- Recognizer for market-order events. -/
def isMarketEvent : TwapEvent → Bool
  | TwapEvent.marketOrder _ _ _ => true
  | TwapEvent.sleepInterval _ => false

/-- Recognizer for sleep events. -/
def isSleepEvent : TwapEvent → Bool
  | TwapEvent.marketOrder _ _ _ => false
  | TwapEvent.sleepInterval _ => true

/-- Mutable state of the TWAP loop, with the trace of its actions. -/
structure TwapSt where
  executed_orders : List ExecutedOrder
  failed_orders : List FailedOrder
  total_executed_qty : ℚ
  events : List TwapEvent
deriving DecidableEq

/-- One TWAP chunk (0-based index i out of n): a market order of
chunk_quantity is always submitted; a success is recorded in
executed_orders and added to the running executed quantity, a failure is
recorded in failed_orders and execution continues; the loop sleeps after
every chunk except the last. -/
def twapChunk (q : TwapParams) (n : ℕ) (st : TwapSt) (i : ℕ) (resp : ChunkResp) :
    TwapSt :=
  let st1 := { st with events := st.events ++
    [TwapEvent.marketOrder (pyUpper q.symbol) (pyUpper q.side) (chunkQuantity q)] }
  let st2 :=
    match resp with
    | ChunkResp.ok oid eqty apr =>
      { st1 with
        executed_orders := st1.executed_orders ++ [⟨i + 1, oid, eqty, apr⟩],
        total_executed_qty := st1.total_executed_qty + eqty }
    | ChunkResp.err c m =>
      { st1 with failed_orders := st1.failed_orders ++ [⟨i + 1, c, m⟩] }
  if i + 1 < n then
    { st2 with events := st2.events ++ [TwapEvent.sleepInterval q.interval_seconds] }
  else st2

/-- Runs the chunks with the given 0-based indices in order. -/
def runChunksAux (q : TwapParams) (n : ℕ) (oracle : ℕ → ChunkResp) :
    List ℕ → TwapSt → TwapSt
  | [], st => st
  | i :: rest, st => runChunksAux q n oracle rest (twapChunk q n st i (oracle i))

/-- The full TWAP execution loop over chunks 1..num_orders. -/
def runChunks (q : TwapParams) (oracle : ℕ → ChunkResp) : TwapSt :=
  runChunksAux q q.num_orders.toNat oracle (List.range q.num_orders.toNat)
    ⟨[], [], 0, []⟩

/-- The summary dict returned by execute_twap_order. -/
structure TwapSummary where
  success : Bool
  total_chunks : ℕ
  executed_chunks : ℕ
  failed_chunks : ℕ
  target_quantity : ℚ
  executed_quantity : ℚ
  executed_orders : List ExecutedOrder
  failed_orders : List FailedOrder
  avg_execution_price : ℚ
deriving DecidableEq

/-- total_value = sum of executed_qty * avg_price over executed_orders. -/
def twapTotalValue (l : List ExecutedOrder) : ℚ :=
  (l.map (fun o => o.executed_qty * o.avg_price)).sum

/-- Builds the TWAP summary from the final loop state, with the source's
guards: avg_execution_price is 0 when no chunk succeeded, and
total_value / total_executed_qty only when the executed quantity is
positive. -/
def mkTwapSummary (q : TwapParams) (st : TwapSt) : TwapSummary :=
  { success := decide (st.failed_orders.length = 0),
    total_chunks := q.num_orders.toNat,
    executed_chunks := st.executed_orders.length,
    failed_chunks := st.failed_orders.length,
    target_quantity := q.total_quantity,
    executed_quantity := st.total_executed_qty,
    executed_orders := st.executed_orders,
    failed_orders := st.failed_orders,
    avg_execution_price :=
      if st.executed_orders.length = 0 then 0
      else if 0 < st.total_executed_qty then
        twapTotalValue st.executed_orders / st.total_executed_qty
      else 0 }

/-- execute_twap_order: validation, then the chunk loop, then the summary. -/
def execute_twap_order (q : TwapParams) (oracle : ℕ → ChunkResp) :
    Option TwapSummary :=
  if twapParamsValid q = false then none
  else some (mkTwapSummary q (runChunks q oracle))

/-- The trace of market orders and sleeps of a TWAP run. -/
def twapTrace (q : TwapParams) (oracle : ℕ → ChunkResp) : List TwapEvent :=
  (runChunks q oracle).events

/-- The event block of chunk i out of n: one market order, followed by one
sleep unless i is the last chunk. -/
def twapBlock (q : TwapParams) (n : ℕ) (i : ℕ) : List TwapEvent :=
  TwapEvent.marketOrder (pyUpper q.symbol) (pyUpper q.side) (chunkQuantity q) ::
  (if i + 1 < n then [TwapEvent.sleepInterval q.interval_seconds] else [])

/-- Concatenation of the event blocks of the chunks with the given indices. -/
def twapEventsFrom (q : TwapParams) (n : ℕ) : List ℕ → List TwapEvent
  | [] => []
  | i :: rest => twapBlock q n i ++ twapEventsFrom q n rest

/-- The grid parameters of the worked example of the spec:
lower 40000, upper 50000, 5 grids. -/
def exampleGridParams : GridParams :=
  ⟨"BTCUSDT", 1/1000, 40000, 50000, 5, 60⟩

/-- Grid parameters whose lower bound 40000.004 is not representable at two
decimal places. -/
def roundingGridParams : GridParams :=
  ⟨"BTCUSDT", 1, 40000 + 1/250, 50000, 1, 60⟩

/-- An environment whose placements all succeed with fresh ids and whose
cancellations succeed. -/
def happyEnv : GridEnv :=
  ⟨fun i => some (i + 1), fun _ => some [], fun _ _ => none, fun _ => true⟩

/-- An environment whose every open-order fetch fails and whose
cancellations fail. -/
def faultyEnv : GridEnv :=
  ⟨fun i => some (i + 1), fun _ => none, fun _ _ => none, fun _ => false⟩

/-- A one-order tracker used to exercise the shutdown pass. -/
def shutdownDemoTracker : Tracker :=
  [(5, ⟨Side.BUY, 41000, 0, 1/1000⟩)]

/-- A cancellation oracle that always succeeds. -/
def cancelAlwaysOk : OrderId → Bool := fun _ => true

/-- Grid parameters with step 10000/3, not representable at two decimals. -/
def thirdsGridParams : GridParams :=
  ⟨"BTCUSDT", 1, 40000, 50000, 3, 60⟩

/-- A loop state holding a single tracked BUY order at the lower bound of
thirdsGridParams. -/
def thirdsSt : GridSt :=
  ⟨[(1, ⟨Side.BUY, 40000, 0, 1⟩)], 1, 0, 0, 0⟩

/-- TWAP parameters of the worked example of the spec. -/
def exampleTwapParams : TwapParams :=
  ⟨"BTCUSDT", "BUY", 1/200, 5, 5⟩

/-- A TWAP oracle whose every chunk fails. -/
def allFailOracle : ℕ → ChunkResp :=
  fun _ => ChunkResp.err (-2019) "Margin is insufficient."

/-- A TWAP oracle whose every chunk succeeds with the requested quantity at
price 50000. -/
def allOkOracle : ℕ → ChunkResp :=
  fun i => ChunkResp.ok (100 + i) (1/1000) 50000

/-- A minimal valid grid: one level, bounds 100 and 200, quantity 1. -/
def miniGridParams : GridParams :=
  ⟨"BTCUSDT", 1, 100, 200, 1, 60⟩

/-- The tracker state produced by the initial placement of miniGridParams
under happyEnv. -/
def miniInitSt : GridSt :=
  ⟨[(1, ⟨Side.BUY, 100, 0, 1⟩), (2, ⟨Side.SELL, 200, 1, 1⟩)], 1, 1, 0, 0⟩

/-- The summary of a zero-cycle mini grid session under happyEnv. -/
def miniSummary : GridSummary := ⟨true, 0, 1, 1, 0, 0, 2, 0⟩

/-- A loop state holding a single tracked SELL order at the upper bound of
miniGridParams. -/
def miniFillSt : GridSt :=
  ⟨[(3, ⟨Side.SELL, 200, 1, 1⟩)], 0, 0, 0, 0⟩

/-- The tracker state produced by the initial placement of
roundingGridParams under happyEnv: the BUY price has been rounded to
40000, below the lower bound 40000.004. -/
def roundingInitSt : GridSt :=
  ⟨[(1, ⟨Side.BUY, 40000, 0, 1⟩), (2, ⟨Side.SELL, 50000, 1, 1⟩)], 1, 1, 0, 0⟩

/-! ### Helper lemmas -/

theorem round2_eval (q : ℚ) (f : ℤ) (h1 : (f : ℚ) ≤ q * 100)
    (h2 : q * 100 - (f : ℚ) < 1/2) : round2 q = (f : ℚ) / 100 := by
  have hf : ⌊q * 100⌋ = f := by
    rw [Int.floor_eq_iff]
    constructor
    · exact h1
    · linarith
  simp only [round2, roundHalfEven, hf]
  rw [if_pos h2]

theorem round2_rep (q : ℚ) (a : ℤ) (h : q * 100 = (a : ℚ)) : round2 q = q := by
  have := round2_eval q a (le_of_eq h.symm) (by rw [h]; norm_num)
  rw [this, ← h]
  ring

theorem validate_symbol_BTCUSDT : validate_symbol "BTCUSDT" = true := by decide

theorem validate_side_BUY : validate_side "BUY" = true := by decide

theorem gridValid_parts (p : GridParams) (hv : gridParamsValid p = true) :
    validate_symbol p.symbol = true ∧ 0 < p.quantity_per_grid ∧
    0 < p.lower_bound ∧ 0 < p.upper_bound ∧ p.lower_bound < p.upper_bound ∧
    0 < p.num_grids ∧ 0 < p.monitor_interval_seconds := by
  simp only [gridParamsValid, validate_quantity, validate_price,
    Bool.and_eq_true, decide_eq_true_eq] at hv
  tauto

theorem twapValid_parts (q : TwapParams) (hv : twapParamsValid q = true) :
    validate_symbol q.symbol = true ∧ validate_side q.side = true ∧
    0 < q.total_quantity ∧ 0 < q.num_orders ∧ 0 < q.interval_seconds := by
  simp only [twapParamsValid, validate_quantity,
    Bool.and_eq_true, decide_eq_true_eq] at hv
  tauto

theorem miniGridValid : gridParamsValid miniGridParams = true := by decide

theorem exampleGridValid : gridParamsValid exampleGridParams = true := by
  simp only [gridParamsValid, miniGridParams, validate_quantity, validate_price,
    Bool.and_eq_true, decide_eq_true_eq, validate_symbol_BTCUSDT, exampleGridParams]
  norm_num [validate_symbol_BTCUSDT]

theorem mem_dictInsert {d : Tracker} {k : OrderId} {v : TrackedOrder}
    {e : OrderId × TrackedOrder} (h : e ∈ dictInsert d k v) :
    e = (k, v) ∨ e ∈ d := by
  unfold dictInsert at h
  split at h
  · obtain ⟨x, hx, hxe⟩ := List.mem_map.mp h
    by_cases hk : (x.1 == k) = true
    · rw [if_pos hk] at hxe
      exact Or.inl hxe.symm
    · rw [if_neg hk] at hxe
      exact Or.inr (hxe ▸ hx)
  · rcases List.mem_append.mp h with h2 | h2
    · exact Or.inr h2
    · exact Or.inl (List.mem_singleton.mp h2)

theorem mem_dictErase {d : Tracker} {k : OrderId} {e : OrderId × TrackedOrder}
    (h : e ∈ dictErase d k) : e ∈ d :=
  (List.mem_filter.mp h).1

theorem dictInsert_ne_nil (d : Tracker) (k : OrderId) (v : TrackedOrder) :
    dictInsert d k v ≠ [] := by
  unfold dictInsert
  split
  · intro hc
    rename_i hany
    rw [List.map_eq_nil_iff] at hc
    subst hc
    simp [List.any_nil] at hany
  · exact List.append_ne_nil_of_right_ne_nil _ (by simp)

theorem dictInsert_length_ge (d : Tracker) (k : OrderId) (v : TrackedOrder) :
    d.length ≤ (dictInsert d k v).length := by
  unfold dictInsert
  split
  · simp
  · simp

theorem dictLookup_mem_keys {d : Tracker} {k : OrderId} {v : TrackedOrder}
    (h : dictLookup d k = some v) : k ∈ dictKeys d := by
  induction d with
  | nil => simp [dictLookup] at h
  | cons hd rest ih =>
    rw [dictLookup, List.find?_cons] at h
    by_cases hc : (hd.1 == k) = true
    · have : hd.1 = k := by simpa using hc
      simp [dictKeys, ← this]
    · have hc2 : (hd.1 == k) = false := by simpa using hc
      simp only [hc2] at h
      have hr : dictLookup rest k = some v := h
      simpa [dictKeys] using Or.inr (by simpa [dictKeys] using ih hr)

theorem dictErase_length {d : Tracker} {k : OrderId}
    (hnd : (dictKeys d).Nodup) (hmem : k ∈ dictKeys d) :
    (dictErase d k).length + 1 = d.length := by
  induction d with
  | nil => simp [dictKeys] at hmem
  | cons hd rest ih =>
    simp only [dictKeys, List.map_cons, List.nodup_cons] at hnd
    simp only [dictKeys, List.map_cons, List.mem_cons] at hmem
    by_cases hc : hd.1 = k
    · have hrest : List.filter (fun x => x.1 != k) rest = rest := by
        rw [List.filter_eq_self]
        intro x hx
        have hxmem : x.1 ∈ List.map Prod.fst rest := List.mem_map_of_mem Prod.fst hx
        have hxk : x.1 ≠ k := by
          intro hxx
          exact hnd.1 (by rw [hc, ← hxx]; exact hxmem)
        simpa using hxk
      simp [dictErase, List.filter_cons, hc, hrest]
    · have hkr : k ∈ List.map Prod.fst rest := by
        rcases hmem with h1 | h1
        · exact absurd h1.symm hc
        · exact h1
      have hne : (hd.1 != k) = true := by simpa using hc
      simp only [dictErase, List.filter_cons, hne, if_pos, List.length_cons]
      have := ih hnd.2 hkr
      simp only [dictErase] at this
      omega

theorem runInitAux_values (env : ℕ → Option OrderId) (P : TrackedOrder → Prop) :
    ∀ (l : List TrackedOrder) (i : ℕ) (st : InitState),
      (∀ a ∈ l, P a) → (∀ e ∈ st.grid_orders, P e.2) →
      ∀ e ∈ (runInitAux env l i st).grid_orders, P e.2 := by
  intro l
  induction l with
  | nil => intro i st _ hst e he; exact hst e he
  | cons a rest ih =>
    intro i st hall hst e he
    refine ih (i + 1) (applyInitAttempt st a (env i))
      (fun x hx => hall x (List.mem_cons_of_mem a hx)) ?_ e he
    intro x hx
    unfold applyInitAttempt at hx
    cases hre : env i with
    | none =>
      rw [hre] at hx
      exact hst x hx
    | some oid =>
      rw [hre] at hx
      have hx2 : x ∈ dictInsert st.grid_orders oid a := hx
      rcases mem_dictInsert hx2 with h1 | h1
      · rw [h1]
        exact hall a (List.mem_cons_self a rest)
      · exact hst x h1

theorem runInitAux_length_mono (env : ℕ → Option OrderId) :
    ∀ (l : List TrackedOrder) (i : ℕ) (st : InitState),
      st.grid_orders.length ≤ (runInitAux env l i st).grid_orders.length := by
  intro l
  induction l with
  | nil => intro i st; exact le_refl _
  | cons a rest ih =>
    intro i st
    refine le_trans ?_ (ih (i + 1) (applyInitAttempt st a (env i)))
    unfold applyInitAttempt
    cases hre : env i with
    | none => exact le_refl _
    | some oid => exact dictInsert_length_ge _ _ _

theorem runInitAux_nil_iff (env : ℕ → Option OrderId) :
    ∀ (l : List TrackedOrder) (i : ℕ) (st : InitState),
      (runInitAux env l i st).grid_orders = [] ↔
        (st.grid_orders = [] ∧ ∀ j, j < l.length → env (i + j) = none) := by
  intro l
  induction l with
  | nil => intro i st; simp [runInitAux]
  | cons a rest ih =>
    intro i st
    rw [runInitAux, ih (i + 1) (applyInitAttempt st a (env i))]
    cases hre : env i with
    | none =>
      simp only [applyInitAttempt]
      constructor
      · rintro ⟨h1, h2⟩
        refine ⟨h1, fun j hj => ?_⟩
        cases j with
        | zero => simpa using hre
        | succ j2 =>
          have h3 := h2 j2 (by simpa [List.length_cons] using hj)
          rw [show i + (j2 + 1) = i + 1 + j2 from by omega]
          exact h3
      · rintro ⟨h1, h2⟩
        refine ⟨h1, fun j hj => ?_⟩
        have h3 := h2 (j + 1) (by simpa [List.length_cons] using hj)
        rw [show i + 1 + j = i + (j + 1) from by omega]
        exact h3
    | some oid =>
      simp only [applyInitAttempt]
      constructor
      · rintro ⟨h1, _⟩
        exact absurd h1 (dictInsert_ne_nil _ _ _)
      · rintro ⟨_, h2⟩
        have := h2 0 (by simp)
        rw [Nat.add_zero, hre] at this
        exact absurd this (by simp)

theorem runInit_nil_iff (p : GridParams) (env : ℕ → Option OrderId) :
    (runInit p env).grid_orders = [] ↔
      ∀ j, j < 2 * p.num_grids.toNat → env j = none := by
  unfold runInit
  rw [runInitAux_nil_iff]
  have hlen : (initAttempts p).length = 2 * p.num_grids.toNat := by
    simp [initAttempts]
    ring
  simp [hlen]

theorem outOfBounds_false {p : GridParams} {price : ℚ}
    (h : outOfBounds p price = false) :
    p.lower_bound ≤ price ∧ price ≤ p.upper_bound := by
  simp only [outOfBounds, Bool.or_eq_false_iff, decide_eq_false_iff_not, not_lt] at h
  exact h

theorem processFill_bounds (p : GridParams) (st : GridSt) (oid : OrderId)
    (resp : Option OrderId) (h : ∀ e ∈ st.grid_orders, priceInBounds p e.2) :
    ∀ e ∈ (processFill p st oid resp).1.grid_orders, priceInBounds p e.2 := by
  intro e he
  unfold processFill at he
  cases hl : dictLookup st.grid_orders oid with
  | none =>
    simp only [hl] at he
    exact h e he
  | some info =>
    simp only [hl] at he
    by_cases hob : outOfBounds p (mirror p info).price = true
    · rw [if_pos hob] at he
      exact h e (mem_dictErase he)
    · rw [if_neg hob] at he
      rw [Bool.not_eq_true] at hob
      cases resp with
      | none => exact h e (mem_dictErase he)
      | some nid =>
        have he2 : e ∈ dictInsert (afterFillRemoval st oid info).grid_orders nid
            (mirror p info) := he
        rcases mem_dictInsert he2 with h1 | h1
        · rw [h1]
          exact outOfBounds_false hob
        · exact h e (mem_dictErase h1)

theorem processFills_bounds (p : GridParams) (place : ℕ → Option OrderId) :
    ∀ (l : List OrderId) (j : ℕ) (st : GridSt),
      (∀ e ∈ st.grid_orders, priceInBounds p e.2) →
      ∀ e ∈ (processFills p place l j st).1.grid_orders, priceInBounds p e.2 := by
  intro l
  induction l with
  | nil => intro j st h e he; exact h e he
  | cons oid rest ih =>
    intro j st h e he
    exact ih (j + 1) (processFill p st oid (place j)).1
      (processFill_bounds p st oid (place j) h) e he

theorem monitorCycle_bounds (p : GridParams) (st : GridSt)
    (fetch : Option (List OrderId)) (place : ℕ → Option OrderId)
    (h : ∀ e ∈ st.grid_orders, priceInBounds p e.2) :
    ∀ e ∈ (monitorCycle p st fetch place).1.grid_orders, priceInBounds p e.2 := by
  unfold monitorCycle
  cases fetch with
  | none => exact h
  | some openIds => exact processFills_bounds p place _ 0 st h

theorem runCyclesFrom_bounds (p : GridParams) (env : GridEnv) :
    ∀ (k c : ℕ) (st : GridSt),
      (∀ e ∈ st.grid_orders, priceInBounds p e.2) →
      ∀ e ∈ (runCyclesFrom p env c k st).1.grid_orders, priceInBounds p e.2 := by
  intro k
  induction k with
  | zero => intro c st h e he; exact h e he
  | succ k2 ih =>
    intro c st h e he
    exact ih (c + 1) (monitorCycle p st (env.fetch c) (env.placeRepl c)).1
      (monitorCycle_bounds p st (env.fetch c) (env.placeRepl c) h) e he

theorem initAttempts_bounds (p : GridParams) (hv : gridParamsValid p = true)
    (a b : ℤ) (ha : p.lower_bound * 100 = (a : ℚ))
    (hb : gridStep p * 100 = (b : ℚ)) :
    ∀ t ∈ initAttempts p, priceInBounds p t := by
  obtain ⟨-, -, -, -, hlu, hn, -⟩ := gridValid_parts p hv
  have hnq : (0 : ℚ) < (p.num_grids : ℚ) := by exact_mod_cast hn
  have hstep : 0 < gridStep p := div_pos (sub_pos.mpr hlu) hnq
  have hmul : (p.num_grids : ℚ) * gridStep p = p.upper_bound - p.lower_bound := by
    field_simp [gridStep]
  have hNq : ((p.num_grids.toNat : ℕ) : ℚ) = (p.num_grids : ℚ) := by
    exact_mod_cast congrArg (Int.cast : ℤ → ℚ) (Int.toNat_of_nonneg hn.le)
  intro t ht
  rcases List.mem_append.mp ht with hm | hm
  · obtain ⟨i, hi, rfl⟩ := List.mem_map.mp hm
    have hiN : i < p.num_grids.toNat := List.mem_range.mp hi
    have hiq : (i : ℚ) < (p.num_grids : ℚ) := by
      rw [← hNq]
      exact_mod_cast hiN
    have hi0 : (0 : ℚ) ≤ (i : ℚ) := Nat.cast_nonneg i
    have hrep : (p.lower_bound + (i : ℚ) * gridStep p) * 100
        = ((a + (i : ℤ) * b : ℤ) : ℚ) := by
      push_cast
      rw [← ha, ← hb]
      ring
    show priceInBounds p ⟨Side.BUY, round2 (p.lower_bound + (i : ℚ) * gridStep p),
      i, p.quantity_per_grid⟩
    unfold priceInBounds
    rw [round2_rep _ _ hrep]
    have hprod : (i : ℚ) * gridStep p < (p.num_grids : ℚ) * gridStep p :=
      mul_lt_mul_of_pos_right hiq hstep
    constructor
    · have := mul_nonneg hi0 hstep.le
      simp only
      linarith
    · simp only
      linarith
  · obtain ⟨i, hi, rfl⟩ := List.mem_map.mp hm
    have hiN : i < p.num_grids.toNat := List.mem_range.mp hi
    have hiq : (i : ℚ) < (p.num_grids : ℚ) := by
      rw [← hNq]
      exact_mod_cast hiN
    have hi0 : (0 : ℚ) ≤ (i : ℚ) := Nat.cast_nonneg i
    have hu : p.upper_bound = p.lower_bound + (p.num_grids : ℚ) * gridStep p := by
      linarith [hmul]
    have hrep : (p.upper_bound - (i : ℚ) * gridStep p) * 100
        = ((a + p.num_grids * b - (i : ℤ) * b : ℤ) : ℚ) := by
      push_cast
      rw [hu, ← ha, ← hb]
      ring
    show priceInBounds p ⟨Side.SELL, round2 (p.upper_bound - (i : ℚ) * gridStep p),
      p.num_grids.toNat + i, p.quantity_per_grid⟩
    unfold priceInBounds
    rw [round2_rep _ _ hrep]
    have hprod : (i : ℚ) * gridStep p < (p.num_grids : ℚ) * gridStep p :=
      mul_lt_mul_of_pos_right hiq hstep
    constructor
    · simp only
      linarith
    · have := mul_nonneg hi0 hstep.le
      simp only
      linarith

theorem initialGridSt_bounds (p : GridParams) (env : GridEnv)
    (hv : gridParamsValid p = true) (a b : ℤ)
    (ha : p.lower_bound * 100 = (a : ℚ)) (hb : gridStep p * 100 = (b : ℚ)) :
    ∀ e ∈ (initialGridSt p env).grid_orders, priceInBounds p e.2 := by
  have : ∀ e ∈ (runInit p env.placeInit).grid_orders, priceInBounds p e.2 := by
    unfold runInit
    exact runInitAux_values env.placeInit (priceInBounds p) (initAttempts p) 0
      ⟨[], 0, 0⟩ (initAttempts_bounds p hv a b ha hb) (by simp)
  exact this

theorem twapChunk_executed (q : TwapParams) (n : ℕ) (st : TwapSt) (i : ℕ)
    (resp : ChunkResp) :
    (twapChunk q n st i resp).executed_orders = st.executed_orders ++
      (match resp with
       | ChunkResp.ok oid eqty apr => [⟨i + 1, oid, eqty, apr⟩]
       | ChunkResp.err _ _ => []) := by
  cases resp <;> unfold twapChunk <;> dsimp only <;> split <;> simp

theorem twapChunk_failed (q : TwapParams) (n : ℕ) (st : TwapSt) (i : ℕ)
    (resp : ChunkResp) :
    (twapChunk q n st i resp).failed_orders = st.failed_orders ++
      (match resp with
       | ChunkResp.ok _ _ _ => []
       | ChunkResp.err c m => [⟨i + 1, c, m⟩]) := by
  cases resp <;> unfold twapChunk <;> dsimp only <;> split <;> simp

theorem twapChunk_total (q : TwapParams) (n : ℕ) (st : TwapSt) (i : ℕ)
    (resp : ChunkResp) :
    (twapChunk q n st i resp).total_executed_qty = st.total_executed_qty +
      (match resp with
       | ChunkResp.ok _ eqty _ => eqty
       | ChunkResp.err _ _ => 0) := by
  cases resp <;> unfold twapChunk <;> dsimp only <;> split <;> simp

theorem twapChunk_events (q : TwapParams) (n : ℕ) (st : TwapSt) (i : ℕ)
    (resp : ChunkResp) :
    (twapChunk q n st i resp).events = st.events ++ twapBlock q n i := by
  cases resp <;> unfold twapChunk twapBlock <;> dsimp only <;>
    split <;> rename_i hlt <;> simp [hlt]

theorem runChunksAux_total (q : TwapParams) (n : ℕ) (oracle : ℕ → ChunkResp) :
    ∀ (l : List ℕ) (st : TwapSt),
      st.total_executed_qty =
        (st.executed_orders.map (fun o => o.executed_qty)).sum →
      (runChunksAux q n oracle l st).total_executed_qty =
        ((runChunksAux q n oracle l st).executed_orders.map
          (fun o => o.executed_qty)).sum := by
  intro l
  induction l with
  | nil => intro st h; exact h
  | cons i rest ih =>
    intro st h
    refine ih (twapChunk q n st i (oracle i)) ?_
    rw [twapChunk_total, twapChunk_executed]
    cases oracle i <;> simp [h]

theorem runChunksAux_counts (q : TwapParams) (n : ℕ) (oracle : ℕ → ChunkResp) :
    ∀ (l : List ℕ) (st : TwapSt),
      (runChunksAux q n oracle l st).executed_orders.length +
        (runChunksAux q n oracle l st).failed_orders.length =
      st.executed_orders.length + st.failed_orders.length + l.length := by
  intro l
  induction l with
  | nil => intro st; simp [runChunksAux]
  | cons i rest ih =>
    intro st
    rw [runChunksAux, ih (twapChunk q n st i (oracle i))]
    rw [twapChunk_executed, twapChunk_failed]
    cases oracle i <;> simp <;> omega

theorem runChunksAux_all_err (q : TwapParams) (n : ℕ) (oracle : ℕ → ChunkResp) :
    ∀ (l : List ℕ) (st : TwapSt),
      (∀ i ∈ l, ∃ c m, oracle i = ChunkResp.err c m) →
      (runChunksAux q n oracle l st).executed_orders = st.executed_orders ∧
      (runChunksAux q n oracle l st).failed_orders.length =
        st.failed_orders.length + l.length := by
  intro l
  induction l with
  | nil => intro st _; simp [runChunksAux]
  | cons i rest ih =>
    intro st hall
    obtain ⟨c, m, hcm⟩ := hall i (List.mem_cons_self i rest)
    rw [runChunksAux]
    obtain ⟨ih1, ih2⟩ := ih (twapChunk q n st i (oracle i))
      (fun x hx => hall x (List.mem_cons_of_mem i hx))
    constructor
    · rw [ih1, twapChunk_executed, hcm]
      simp
    · rw [ih2, twapChunk_failed, hcm]
      simp only [List.length_append, List.length_cons, List.length_nil]
      omega

theorem runChunksAux_events (q : TwapParams) (n : ℕ) (oracle : ℕ → ChunkResp) :
    ∀ (l : List ℕ) (st : TwapSt),
      (runChunksAux q n oracle l st).events =
        st.events ++ twapEventsFrom q n l := by
  intro l
  induction l with
  | nil => intro st; simp [runChunksAux, twapEventsFrom]
  | cons i rest ih =>
    intro st
    rw [runChunksAux, ih (twapChunk q n st i (oracle i)), twapChunk_events,
      twapEventsFrom, List.append_assoc]

theorem twapEventsFrom_market_count (q : TwapParams) (n : ℕ) :
    ∀ l : List ℕ, (twapEventsFrom q n l).countP isMarketEvent = l.length := by
  intro l
  induction l with
  | nil => simp [twapEventsFrom]
  | cons i rest ih =>
    rw [twapEventsFrom, List.countP_append, ih]
    unfold twapBlock
    split <;> simp [isMarketEvent] <;> omega

theorem twapEventsFrom_sleep_count (q : TwapParams) (n : ℕ) :
    ∀ l : List ℕ, (twapEventsFrom q n l).countP isSleepEvent =
      l.countP (fun i => i + 1 < n) := by
  intro l
  induction l with
  | nil => simp [twapEventsFrom]
  | cons i rest ih =>
    rw [twapEventsFrom, List.countP_append, ih, List.countP_cons]
    unfold twapBlock
    by_cases hlt : i + 1 < n
    · simp [hlt, isSleepEvent]
      omega
    · simp [hlt, isSleepEvent]

theorem twapEventsFrom_market_shape (q : TwapParams) (n : ℕ) :
    ∀ l : List ℕ, ∀ e ∈ twapEventsFrom q n l, isMarketEvent e = true →
      e = TwapEvent.marketOrder (pyUpper q.symbol) (pyUpper q.side)
        (chunkQuantity q) := by
  intro l
  induction l with
  | nil => intro e he; simp [twapEventsFrom] at he
  | cons i rest ih =>
    intro e he hm
    rw [twapEventsFrom] at he
    rcases List.mem_append.mp he with h1 | h1
    · unfold twapBlock at h1
      rcases List.mem_cons.mp h1 with h2 | h2
      · exact h2
      · exfalso
        by_cases hlt : i + 1 < n
        · rw [if_pos hlt] at h2
          rw [List.mem_singleton.mp h2] at hm
          simp [isSleepEvent, isMarketEvent] at hm
        · rw [if_neg hlt] at h2
          simp at h2
    · exact ih e h1 hm

theorem twapEventsFrom_append (q : TwapParams) (n : ℕ) :
    ∀ l1 l2 : List ℕ, twapEventsFrom q n (l1 ++ l2) =
      twapEventsFrom q n l1 ++ twapEventsFrom q n l2 := by
  intro l1 l2
  induction l1 with
  | nil => simp [twapEventsFrom]
  | cons i rest ih =>
    simp only [List.cons_append, twapEventsFrom, ih, List.append_assoc,
      List.append_eq]

theorem range_countP_pred (n : ℕ) :
    (List.range n).countP (fun i => i + 1 < n) = n - 1 := by
  cases n with
  | zero => simp
  | succ m =>
    rw [List.range_succ, List.countP_append]
    have h1 : (List.range m).countP (fun i => i + 1 < m + 1)
        = (List.range m).length := by
      rw [List.countP_eq_length]
      intro i hi
      simp only [decide_eq_true_eq]
      have := List.mem_range.mp hi
      omega
    rw [h1, List.length_range]
    simp

theorem execute_twap_some (q : TwapParams) (oracle : ℕ → ChunkResp)
    (hv : twapParamsValid q = true) :
    execute_twap_order q oracle =
      some (mkTwapSummary q (runChunks q oracle)) := by
  simp [execute_twap_order, hv]

theorem twapTrace_eq (q : TwapParams) (oracle : ℕ → ChunkResp) :
    twapTrace q oracle =
      twapEventsFrom q q.num_orders.toNat (List.range q.num_orders.toNat) := by
  unfold twapTrace runChunks
  rw [runChunksAux_events]
  simp

theorem twapTrace_getLast (q : TwapParams) (oracle : ℕ → ChunkResp)
    (hn : q.num_orders.toNat ≠ 0) :
    (twapTrace q oracle).getLast? =
      some (TwapEvent.marketOrder (pyUpper q.symbol) (pyUpper q.side)
        (chunkQuantity q)) := by
  rw [twapTrace_eq]
  obtain ⟨m, hm⟩ : ∃ m, q.num_orders.toNat = m + 1 :=
    ⟨q.num_orders.toNat - 1, by omega⟩
  rw [hm, List.range_succ, twapEventsFrom_append]
  have hblock : twapBlock q (m + 1) m = [TwapEvent.marketOrder (pyUpper q.symbol)
      (pyUpper q.side) (chunkQuantity q)] := by
    unfold twapBlock
    rw [if_neg (by omega)]
  have hsingle : twapEventsFrom q (m + 1) [m] = twapBlock q (m + 1) m ++ [] := rfl
  rw [hsingle, hblock]
  simp

theorem start_grid_invalid (p : GridParams) (k : ℕ) (env : GridEnv)
    (h : gridParamsValid p = false) :
    start_grid_trading p k env = (none, []) := by
  simp [start_grid_trading, h]

theorem start_grid_no_orders (p : GridParams) (k : ℕ) (env : GridEnv)
    (hv : gridParamsValid p = true)
    (h : (runInit p env.placeInit).grid_orders.length = 0) :
    start_grid_trading p k env = (none, initCalls p) := by
  simp [start_grid_trading, hv, h]

theorem start_grid_some (p : GridParams) (k : ℕ) (env : GridEnv)
    (hv : gridParamsValid p = true)
    (h : (runInit p env.placeInit).grid_orders.length ≠ 0) :
    start_grid_trading p k env =
      (some ⟨true, k,
        (runCyclesFrom p env 1 k (initialGridSt p env)).1.total_buy_orders_placed,
        (runCyclesFrom p env 1 k (initialGridSt p env)).1.total_sell_orders_placed,
        (runCyclesFrom p env 1 k (initialGridSt p env)).1.total_buy_fills,
        (runCyclesFrom p env 1 k (initialGridSt p env)).1.total_sell_fills,
        (shutdownPass p env.cancelOk
          (runCyclesFrom p env 1 k (initialGridSt p env)).1.grid_orders).1,
        (runCyclesFrom p env 1 k (initialGridSt p env)).1.total_buy_fills +
        (runCyclesFrom p env 1 k (initialGridSt p env)).1.total_sell_fills⟩,
       initCalls p ++ (runCyclesFrom p env 1 k (initialGridSt p env)).2 ++
         (shutdownPass p env.cancelOk
           (runCyclesFrom p env 1 k (initialGridSt p env)).1.grid_orders).2.1) := by
  simp [start_grid_trading, hv, h]

theorem sessionStateAfter_some (p : GridParams) (env : GridEnv) (k : ℕ)
    (hv : gridParamsValid p = true)
    (h : (runInit p env.placeInit).grid_orders.length ≠ 0) :
    sessionStateAfter p env k =
      some (runCyclesFrom p env 1 k (initialGridSt p env)).1 := by
  simp [sessionStateAfter, hv, h]

theorem round2_int_val (v : ℚ) (a : ℤ) (h : v * 100 = (a : ℚ)) : round2 v = v :=
  round2_rep v a h

theorem miniInitAttempts : initAttempts miniGridParams =
    [⟨Side.BUY, 100, 0, 1⟩, ⟨Side.SELL, 200, 1, 1⟩] := by
  have hs : gridStep miniGridParams = 100 := by
    norm_num [gridStep, miniGridParams]
  have hb : round2 ((100 : ℚ)) = 100 := round2_rep 100 10000 (by norm_num)
  have hc : round2 ((200 : ℚ)) = 200 := round2_rep 200 20000 (by norm_num)
  simp only [initAttempts, miniGridParams]
  norm_num [gridStep, List.range_succ, List.range_zero, hb, hc]

theorem roundingInitAttempts : initAttempts roundingGridParams =
    [⟨Side.BUY, 40000, 0, 1⟩, ⟨Side.SELL, 50000, 1, 1⟩] := by
  have hs : gridStep roundingGridParams = 2499999/250 := by
    norm_num [gridStep, roundingGridParams]
  have hb : round2 ((10000001 : ℚ)/250) = 40000 := by
    rw [round2_eval ((10000001 : ℚ)/250) 4000000 (by norm_num) (by norm_num)]
    norm_num
  have hc : round2 ((50000 : ℚ)) = 50000 := round2_rep 50000 5000000 (by norm_num)
  simp only [initAttempts, roundingGridParams]
  norm_num [gridStep, List.range_succ, List.range_zero, hb, hc]

theorem thirdsMirrorPrice :
    round2 ((40000 : ℚ) + gridStep thirdsGridParams) = 4333333/100 := by
  have hs : gridStep thirdsGridParams = 10000/3 := by
    norm_num [gridStep, thirdsGridParams]
  rw [hs]
  rw [round2_eval ((40000 : ℚ) + 10000/3) 4333333 (by norm_num) (by norm_num)]
  norm_num

theorem roundingGridValid : gridParamsValid roundingGridParams = true := by
  norm_num [gridParamsValid, roundingGridParams, validate_quantity,
    validate_price, validate_symbol_BTCUSDT]

theorem exampleAttempts_prices :
    (initAttempts exampleGridParams).map (fun a => (a.side, a.price)) =
      [(Side.BUY, 40000), (Side.BUY, 42000), (Side.BUY, 44000),
       (Side.BUY, 46000), (Side.BUY, 48000),
       (Side.SELL, 50000), (Side.SELL, 48000), (Side.SELL, 46000),
       (Side.SELL, 44000), (Side.SELL, 42000)] := by
  have h40 : round2 ((40000 : ℚ)) = 40000 := round2_rep _ 4000000 (by norm_num)
  have h42 : round2 ((42000 : ℚ)) = 42000 := round2_rep _ 4200000 (by norm_num)
  have h44 : round2 ((44000 : ℚ)) = 44000 := round2_rep _ 4400000 (by norm_num)
  have h46 : round2 ((46000 : ℚ)) = 46000 := round2_rep _ 4600000 (by norm_num)
  have h48 : round2 ((48000 : ℚ)) = 48000 := round2_rep _ 4800000 (by norm_num)
  have h50 : round2 ((50000 : ℚ)) = 50000 := round2_rep _ 5000000 (by norm_num)
  have ht : (5 : ℤ).toNat = 5 := rfl
  simp only [initAttempts, exampleGridParams, ht]
  norm_num [gridStep, List.range_succ, List.range_zero,
    h40, h42, h44, h46, h48, h50]

theorem exampleGridStep : gridStep exampleGridParams = 2000 := by
  norm_num [gridStep, exampleGridParams]

theorem miniInitEval : runInit miniGridParams happyEnv.placeInit =
    ⟨[(1, ⟨Side.BUY, 100, 0, 1⟩), (2, ⟨Side.SELL, 200, 1, 1⟩)], 1, 1⟩ := by
  unfold runInit
  rw [miniInitAttempts]
  simp [runInitAux, applyInitAttempt, happyEnv, dictInsert]

theorem miniSessionState0 :
    sessionStateAfter miniGridParams happyEnv 0 = some miniInitSt := by
  rw [sessionStateAfter_some miniGridParams happyEnv 0 miniGridValid
    (by rw [miniInitEval]; simp)]
  rw [runCyclesFrom]
  simp [initialGridSt, miniInitEval, miniInitSt]

theorem miniStartGrid :
    (start_grid_trading miniGridParams 0 happyEnv).1 = some miniSummary := by
  rw [start_grid_some miniGridParams 0 happyEnv miniGridValid
    (by rw [miniInitEval]; simp)]
  rw [runCyclesFrom]
  simp only [initialGridSt, miniInitEval]
  simp [shutdownPass, dictKeys, happyEnv, miniSummary]

theorem roundingSessionState0 :
    sessionStateAfter roundingGridParams happyEnv 0 = some roundingInitSt := by
  have hinit : runInit roundingGridParams happyEnv.placeInit =
      ⟨[(1, ⟨Side.BUY, 40000, 0, 1⟩), (2, ⟨Side.SELL, 50000, 1, 1⟩)], 1, 1⟩ := by
    unfold runInit
    rw [roundingInitAttempts]
    simp [runInitAux, applyInitAttempt, happyEnv, dictInsert]
  rw [sessionStateAfter_some roundingGridParams happyEnv 0 roundingGridValid
    (by rw [hinit]; simp)]
  rw [runCyclesFrom]
  simp [initialGridSt, hinit, roundingInitSt]

/-- Claim C3: for every valid parameter set, grid initialization attempts
exactly 2*numGrids placements with positive step: numGrids BUY orders at
round(lowerBound + i*step, 2) with levels 0..numGrids-1, then numGrids SELL
orders at round(upperBound - i*step, 2) with levels numGrids..2*numGrids-1;
on the worked example 40000/50000/5 the step is 2000 and the prices are
40000..48000 for BUY and 50000..42000 for SELL. -/
theorem grid_init_placement_schedule (p : GridParams)
    (h1 : 0 < p.num_grids) (h2 : p.lower_bound < p.upper_bound) :
    (initAttempts p).length = 2 * p.num_grids.toNat ∧
    0 < gridStep p ∧
    (∀ i, i < p.num_grids.toNat →
      (initAttempts p)[i]? = some ⟨Side.BUY,
        round2 (p.lower_bound + (i : ℚ) * gridStep p), i, p.quantity_per_grid⟩ ∧
      (initAttempts p)[p.num_grids.toNat + i]? = some ⟨Side.SELL,
        round2 (p.upper_bound - (i : ℚ) * gridStep p), p.num_grids.toNat + i,
        p.quantity_per_grid⟩) ∧
    (initAttempts exampleGridParams).map (fun a => (a.side, a.price)) =
      [(Side.BUY, 40000), (Side.BUY, 42000), (Side.BUY, 44000),
       (Side.BUY, 46000), (Side.BUY, 48000),
       (Side.SELL, 50000), (Side.SELL, 48000), (Side.SELL, 46000),
       (Side.SELL, 44000), (Side.SELL, 42000)] ∧
    gridStep exampleGridParams = 2000 := by
  refine ⟨?_, ?_, ?_, exampleAttempts_prices, exampleGridStep⟩
  · simp [initAttempts]
    ring
  · have hnq : (0 : ℚ) < (p.num_grids : ℚ) := by exact_mod_cast h1
    exact div_pos (sub_pos.mpr h2) hnq
  · intro i hi
    constructor
    · rw [initAttempts, List.getElem?_append,
        if_pos (by simpa using hi), List.getElem?_map, List.getElem?_range hi]
      rfl
    · rw [initAttempts, List.getElem?_append, if_neg (by simp)]
      simp only [List.length_map, List.length_range, Nat.add_sub_cancel_left]
      rw [List.getElem?_map, List.getElem?_range hi]
      rfl

theorem grid_init_placement_schedule_witness :
    (0 : ℤ) < 5 ∧ (40000 : ℚ) < 50000 ∧
      (initAttempts exampleGridParams).length = 2 * (5 : ℤ).toNat :=
  ⟨by norm_num, by norm_num,
   (grid_init_placement_schedule exampleGridParams (by decide)
     (by norm_num [exampleGridParams])).1⟩

/-- Claim C4: if any precondition is violated (malformed symbol,
non-positive quantity or bound, upper at most lower, non-positive grid
count), start_grid_trading returns a failure with an empty gateway-call
trace and no session state. -/
theorem grid_validation_no_side_effects (p : GridParams) (k : ℕ) (env : GridEnv)
    (h : validate_symbol p.symbol = false ∨ p.quantity_per_grid ≤ 0 ∨
      p.lower_bound ≤ 0 ∨ p.upper_bound ≤ 0 ∨ p.upper_bound ≤ p.lower_bound ∨
      p.num_grids ≤ 0) :
    start_grid_trading p k env = (none, []) ∧ sessionStateAfter p env k = none := by
  have hvf : gridParamsValid p = false := by
    cases hb : gridParamsValid p with
    | false => rfl
    | true =>
      exfalso
      obtain ⟨hs, hq, hl, hu, hlt, hn, hm⟩ := gridValid_parts p hb
      rcases h with h | h | h | h | h | h
      · rw [hs] at h
        exact Bool.noConfusion h
      · linarith
      · linarith
      · linarith
      · linarith
      · omega
  exact ⟨start_grid_invalid p k env hvf, by simp [sessionStateAfter, hvf]⟩

theorem grid_validation_no_side_effects_witness :
    validate_symbol "btcusdt" = false ∧
      start_grid_trading ⟨"btcusdt", 1, 100, 200, 1, 60⟩ 1 happyEnv = (none, []) :=
  ⟨by decide,
   (grid_validation_no_side_effects ⟨"btcusdt", 1, 100, 200, 1, 60⟩ 1 happyEnv
     (Or.inl (by decide))).1⟩

/-- Claim C9: with valid parameters, initial placement always attempts all
2*numGrids create-order calls (per-order failures do not abort the rest),
the session trace starts with exactly those calls, and the run is fatal
(returns none) precisely when every one of the 2*numGrids placements
failed. -/
theorem grid_init_partial_failure_policy (p : GridParams) (k : ℕ) (env : GridEnv)
    (hv : gridParamsValid p = true) :
    (initCalls p).length = 2 * p.num_grids.toNat ∧
    (∃ rest, (start_grid_trading p k env).2 = initCalls p ++ rest) ∧
    ((start_grid_trading p k env).1 = none ↔
      ∀ j, j < 2 * p.num_grids.toNat → env.placeInit j = none) := by
  refine ⟨?_, ?_, ?_⟩
  · simp [initCalls, initAttempts]
    ring
  · by_cases h0 : (runInit p env.placeInit).grid_orders.length = 0
    · exact ⟨[], by rw [start_grid_no_orders p k env hv h0]; simp⟩
    · refine ⟨(runCyclesFrom p env 1 k (initialGridSt p env)).2 ++
        (shutdownPass p env.cancelOk
          (runCyclesFrom p env 1 k (initialGridSt p env)).1.grid_orders).2.1, ?_⟩
      rw [start_grid_some p k env hv h0]
      simp [List.append_assoc]
  · by_cases h0 : (runInit p env.placeInit).grid_orders.length = 0
    · rw [start_grid_no_orders p k env hv h0]
      constructor
      · intro _
        exact (runInit_nil_iff p env.placeInit).mp (List.length_eq_zero.mp h0)
      · intro _
        rfl
    · rw [start_grid_some p k env hv h0]
      constructor
      · intro hc
        simp at hc
      · intro hall
        exact absurd (congrArg List.length
          ((runInit_nil_iff p env.placeInit).mpr hall)) (by simpa using h0)

theorem grid_init_partial_failure_policy_witness :
    gridParamsValid miniGridParams = true ∧
      (initCalls miniGridParams).length = 2 * (1 : ℤ).toNat :=
  ⟨miniGridValid,
   (grid_init_partial_failure_policy miniGridParams 0 happyEnv miniGridValid).1⟩

/-- Claim C10: whenever the grid engine returns a summary, its success
field is true unconditionally and total_trades equals
buy_fills + sell_fills. -/
theorem grid_summary_success_and_total_trades (p : GridParams) (k : ℕ)
    (env : GridEnv) (s : GridSummary)
    (h : (start_grid_trading p k env).1 = some s) :
    s.success = true ∧ s.total_trades = s.buy_fills + s.sell_fills := by
  by_cases hv : gridParamsValid p = true
  · by_cases h0 : (runInit p env.placeInit).grid_orders.length = 0
    · rw [start_grid_no_orders p k env hv h0] at h
      simp at h
    · rw [start_grid_some p k env hv h0] at h
      simp only [Option.some.injEq] at h
      rw [← h]
      exact ⟨rfl, rfl⟩
  · have hvf : gridParamsValid p = false := by
      cases hb : gridParamsValid p with
      | true => exact absurd hb hv
      | false => rfl
    rw [start_grid_invalid p k env hvf] at h
    simp at h

theorem grid_summary_success_and_total_trades_witness :
    (start_grid_trading miniGridParams 0 happyEnv).1 = some miniSummary ∧
    miniSummary.success = true ∧
    miniSummary.total_trades = miniSummary.buy_fills + miniSummary.sell_fills :=
  ⟨miniStartGrid,
   grid_summary_success_and_total_trades miniGridParams 0 happyEnv miniSummary
     miniStartGrid⟩

/-- Claim C7: no gateway error terminates either engine's loop: a valid
grid session that placed at least one order always runs its k cycles and
returns a summary with cycles = k, whatever errors the environment
produces, and a valid TWAP run always returns a summary accounting for all
numChunks chunks and always submits all numChunks market orders. -/
theorem engine_loops_survive_gateway_errors :
    (∀ (p : GridParams) (k : ℕ) (env : GridEnv),
      gridParamsValid p = true →
      (runInit p env.placeInit).grid_orders.length ≠ 0 →
      ∃ s, (start_grid_trading p k env).1 = some s ∧ s.cycles = k) ∧
    (∀ (q : TwapParams) (oracle : ℕ → ChunkResp),
      twapParamsValid q = true →
      ∃ s, execute_twap_order q oracle = some s ∧
        s.executed_chunks + s.failed_chunks = q.num_orders.toNat ∧
        (twapTrace q oracle).countP isMarketEvent = q.num_orders.toNat) := by
  constructor
  · intro p k env hv h0
    exact ⟨_, by rw [start_grid_some p k env hv h0], rfl⟩
  · intro q oracle hv
    refine ⟨mkTwapSummary q (runChunks q oracle), execute_twap_some q oracle hv,
      ?_, ?_⟩
    · show (runChunks q oracle).executed_orders.length +
        (runChunks q oracle).failed_orders.length = _
      unfold runChunks
      rw [runChunksAux_counts]
      simp
    · rw [twapTrace_eq, twapEventsFrom_market_count]
      simp

theorem engine_loops_survive_gateway_errors_witness :
    gridParamsValid miniGridParams = true ∧
    (runInit miniGridParams faultyEnv.placeInit).grid_orders.length ≠ 0 ∧
    (∃ s, (start_grid_trading miniGridParams 3 faultyEnv).1 = some s ∧
      s.cycles = 3) := by
  have hne : (runInit miniGridParams faultyEnv.placeInit).grid_orders.length ≠ 0 := by
    have hpe : faultyEnv.placeInit = happyEnv.placeInit := rfl
    rw [hpe, miniInitEval]
    simp
  exact ⟨miniGridValid, hne,
    engine_loops_survive_gateway_errors.1 miniGridParams 3 faultyEnv
      miniGridValid hne⟩

/-- Claim C5: the TWAP summary satisfies executedQuantity = sum of
executedQty over successful chunks; avgExecutionPrice is the
quantity-weighted average when executedQuantity is positive and 0
otherwise; success holds iff failedChunks = 0; and when every chunk fails
the average price is 0 and success is false. -/
theorem twap_summary_aggregation (q : TwapParams) (oracle : ℕ → ChunkResp)
    (s : TwapSummary) (hv : twapParamsValid q = true)
    (hs : execute_twap_order q oracle = some s) :
    s.executed_quantity = (s.executed_orders.map (fun o => o.executed_qty)).sum ∧
    s.avg_execution_price =
      (if 0 < s.executed_quantity then
        twapTotalValue s.executed_orders / s.executed_quantity else 0) ∧
    (s.success = true ↔ s.failed_chunks = 0) ∧
    ((∀ i, i < q.num_orders.toNat → ∃ c m, oracle i = ChunkResp.err c m) →
      s.avg_execution_price = 0 ∧ s.success = false) := by
  rw [execute_twap_some q oracle hv] at hs
  replace hs := Option.some.inj hs
  subst hs
  have hsum : (runChunks q oracle).total_executed_qty =
      ((runChunks q oracle).executed_orders.map (fun o => o.executed_qty)).sum := by
    unfold runChunks
    exact runChunksAux_total q q.num_orders.toNat oracle
      (List.range q.num_orders.toNat) ⟨[], [], 0, []⟩ (by simp)
  obtain ⟨-, -, -, hn, -⟩ := twapValid_parts q hv
  have hn0 : q.num_orders.toNat ≠ 0 := by omega
  refine ⟨hsum, ?_, ?_, ?_⟩
  · show (mkTwapSummary q (runChunks q oracle)).avg_execution_price = _
    by_cases hemp : (runChunks q oracle).executed_orders.length = 0
    · have hnil : (runChunks q oracle).executed_orders = [] :=
        List.length_eq_zero.mp hemp
      have hz : (runChunks q oracle).total_executed_qty = 0 := by
        rw [hsum, hnil]
        simp
      simp [mkTwapSummary, hemp, hz]
    · simp [mkTwapSummary, hemp]
  · simp [mkTwapSummary]
  · intro hall
    have hae := runChunksAux_all_err q q.num_orders.toNat oracle
      (List.range q.num_orders.toNat) ⟨[], [], 0, []⟩
      (fun i hi => hall i (List.mem_range.mp hi))
    have hnil : (runChunks q oracle).executed_orders = [] := by
      unfold runChunks
      rw [hae.1]
    have hflen : (runChunks q oracle).failed_orders.length = q.num_orders.toNat := by
      unfold runChunks
      rw [hae.2]
      simp
    constructor
    · simp [mkTwapSummary, hnil]
    · simp [mkTwapSummary, hflen, hn0]

theorem twap_summary_aggregation_witness :
    twapParamsValid exampleTwapParams = true ∧
    (mkTwapSummary exampleTwapParams
      (runChunks exampleTwapParams allFailOracle)).avg_execution_price = 0 ∧
    (mkTwapSummary exampleTwapParams
      (runChunks exampleTwapParams allFailOracle)).success = false := by
  have hv : twapParamsValid exampleTwapParams = true := by
    norm_num [twapParamsValid, exampleTwapParams, validate_quantity,
      validate_symbol_BTCUSDT, validate_side_BUY]
  have h := (twap_summary_aggregation exampleTwapParams allFailOracle _ hv
    (execute_twap_some exampleTwapParams allFailOracle hv)).2.2.2
    (fun i _ => ⟨-2019, "Margin is insufficient.", rfl⟩)
  exact ⟨hv, h.1, h.2⟩

/-- Claim C6: a valid TWAP run submits exactly numChunks market orders,
each of quantity totalQuantity / numChunks, and sleeps exactly
numChunks - 1 times, between consecutive chunks but never after the last
submission. -/
theorem twap_chunk_submissions_and_sleeps (q : TwapParams)
    (oracle : ℕ → ChunkResp) (hv : twapParamsValid q = true) :
    (twapTrace q oracle).countP isMarketEvent = q.num_orders.toNat ∧
    (∀ e ∈ twapTrace q oracle, isMarketEvent e = true →
      e = TwapEvent.marketOrder (pyUpper q.symbol) (pyUpper q.side)
        (q.total_quantity / (q.num_orders : ℚ))) ∧
    (twapTrace q oracle).countP isSleepEvent = q.num_orders.toNat - 1 ∧
    (twapTrace q oracle).getLast? = some (TwapEvent.marketOrder
      (pyUpper q.symbol) (pyUpper q.side) (chunkQuantity q)) := by
  obtain ⟨-, -, -, hn, -⟩ := twapValid_parts q hv
  have hn0 : q.num_orders.toNat ≠ 0 := by omega
  refine ⟨?_, ?_, ?_, twapTrace_getLast q oracle hn0⟩
  · rw [twapTrace_eq, twapEventsFrom_market_count]
    simp
  · intro e he hm
    rw [twapTrace_eq] at he
    have := twapEventsFrom_market_shape q q.num_orders.toNat
      (List.range q.num_orders.toNat) e he hm
    simpa [chunkQuantity] using this
  · rw [twapTrace_eq, twapEventsFrom_sleep_count, range_countP_pred]

theorem twap_chunk_submissions_and_sleeps_witness :
    twapParamsValid exampleTwapParams = true ∧
    (twapTrace exampleTwapParams allOkOracle).countP isMarketEvent =
      (5 : ℤ).toNat ∧
    (twapTrace exampleTwapParams allOkOracle).countP isSleepEvent =
      (5 : ℤ).toNat - 1 := by
  have hv : twapParamsValid exampleTwapParams = true := by
    norm_num [twapParamsValid, exampleTwapParams, validate_quantity,
      validate_symbol_BTCUSDT, validate_side_BUY]
  have h := twap_chunk_submissions_and_sleeps exampleTwapParams allOkOracle hv
  exact ⟨hv, h.1, h.2.2.1⟩

/-- Claim C2 counterexample: with valid bounds 40000.004 and 50000 and one
grid, the initially placed BUY order is tracked at the rounded price
40000, which lies strictly below the lower bound, so the claimed
invariant fails right after initial placement. -/
theorem grid_price_invariant_rounding_cex :
    gridParamsValid roundingGridParams = true ∧
    sessionStateAfter roundingGridParams happyEnv 0 = some roundingInitSt ∧
    (1, (⟨Side.BUY, 40000, 0, 1⟩ : TrackedOrder)) ∈ roundingInitSt.grid_orders ∧
    ¬ priceInBounds roundingGridParams ⟨Side.BUY, 40000, 0, 1⟩ := by
  refine ⟨roundingGridValid, roundingSessionState0, by simp [roundingInitSt], ?_⟩
  intro hc
  have h1 := hc.1
  norm_num [roundingGridParams] at h1

/-- Claim C2 (amended): when the bounds and the grid step are exactly
representable at two decimal places (100 times each is an integer), every
order present in the tracker after initial placement and after every
monitoring cycle has its price in the closed interval from lower_bound to
upper_bound, and the shutdown pass leaves the tracker unchanged.  Without
that proviso the invariant can fail for initially placed orders, whose
submitted price is the grid price rounded to 2 decimals with no bound
re-check. -/
theorem grid_price_invariant_representable (p : GridParams) (env : GridEnv)
    (k : ℕ) (st : GridSt) (hv : gridParamsValid p = true) (a b : ℤ)
    (ha : p.lower_bound * 100 = (a : ℚ)) (hb : gridStep p * 100 = (b : ℚ))
    (hst : sessionStateAfter p env k = some st) :
    (∀ e ∈ st.grid_orders, priceInBounds p e.2) ∧
    (shutdownPass p env.cancelOk st.grid_orders).2.2 = st.grid_orders := by
  refine ⟨?_, rfl⟩
  simp only [sessionStateAfter] at hst
  split at hst
  · exact absurd hst (by simp)
  · split at hst
    · exact absurd hst (by simp)
    · replace hst := Option.some.inj hst
      subst hst
      exact runCyclesFrom_bounds p env k 1 (initialGridSt p env)
        (initialGridSt_bounds p env hv a b ha hb)

theorem grid_price_invariant_representable_witness :
    gridParamsValid miniGridParams = true ∧
    miniGridParams.lower_bound * 100 = ((10000 : ℤ) : ℚ) ∧
    gridStep miniGridParams * 100 = ((10000 : ℤ) : ℚ) ∧
    sessionStateAfter miniGridParams happyEnv 0 = some miniInitSt ∧
    priceInBounds miniGridParams (⟨Side.BUY, 100, 0, 1⟩ : TrackedOrder) := by
  have h1 : miniGridParams.lower_bound * 100 = ((10000 : ℤ) : ℚ) := by
    norm_num [miniGridParams]
  have h2 : gridStep miniGridParams * 100 = ((10000 : ℤ) : ℚ) := by
    norm_num [gridStep, miniGridParams]
  refine ⟨miniGridValid, h1, h2, miniSessionState0, ?_⟩
  exact (grid_price_invariant_representable miniGridParams happyEnv 0 miniInitSt
    miniGridValid 10000 10000 h1 h2 miniSessionState0).1
    (1, ⟨Side.BUY, 100, 0, 1⟩) (by simp [miniInitSt])

/-- Claim C8 counterexample: the shutdown pass never deletes cancelled
orders from the tracker, so running the pass a second time issues a second
cancel request for the same order: order 5 receives two cancel requests
across two passes, refuting cancellation at most once per order. -/
theorem shutdown_repeat_recancels_cex :
    ((shutdownPass exampleGridParams cancelAlwaysOk shutdownDemoTracker).2.1 ++
      (shutdownPass exampleGridParams cancelAlwaysOk
        (shutdownPass exampleGridParams cancelAlwaysOk
          shutdownDemoTracker).2.2).2.1).count
      (GatewayCall.cancelOrder "BTCUSDT" 5) = 2 ∧
    ¬ (((shutdownPass exampleGridParams cancelAlwaysOk shutdownDemoTracker).2.1 ++
      (shutdownPass exampleGridParams cancelAlwaysOk
        (shutdownPass exampleGridParams cancelAlwaysOk
          shutdownDemoTracker).2.2).2.1).count
      (GatewayCall.cancelOrder "BTCUSDT" 5) ≤ 1) := by
  constructor
  · decide
  · decide

/-- Claim C8 (amended): the shutdown pass issues exactly one cancel request
per order still present in the tracker and none for any order id absent
from it (in particular none for orders removed at fill time); but it
leaves the tracker unchanged, so a repeated pass re-issues requests for
every remaining order. -/
theorem shutdown_cancels_only_tracked (p : GridParams) (c : OrderId → Bool)
    (d : Tracker) :
    (shutdownPass p c d).2.2 = d ∧
    (shutdownPass p c d).2.1 =
      (dictKeys d).map (fun oid => GatewayCall.cancelOrder p.symbol oid) ∧
    (∀ oid, oid ∉ dictKeys d →
      GatewayCall.cancelOrder p.symbol oid ∉ (shutdownPass p c d).2.1) := by
  refine ⟨rfl, rfl, ?_⟩
  intro oid hoid hmem
  obtain ⟨x, hx, hxe⟩ := List.mem_map.mp hmem
  injection hxe with hs1 hs2
  subst hs2
  exact hoid hx

theorem shutdown_cancels_only_tracked_witness :
    (9 : OrderId) ∉ dictKeys shutdownDemoTracker ∧
    GatewayCall.cancelOrder "BTCUSDT" 9 ∉
      (shutdownPass exampleGridParams cancelAlwaysOk shutdownDemoTracker).2.1 := by
  have h9 : (9 : OrderId) ∉ dictKeys shutdownDemoTracker := by decide
  exact ⟨h9, (shutdown_cancels_only_tracked exampleGridParams cancelAlwaysOk
    shutdownDemoTracker).2.2 9 h9⟩

theorem mirror_of_buy (p : GridParams) (info : TrackedOrder)
    (hside : info.side = Side.BUY) :
    mirror p info = ⟨Side.SELL, round2 (info.price + gridStep p),
      info.grid_level, info.quantity⟩ := by
  unfold mirror
  rw [hside]

theorem mirror_of_sell (p : GridParams) (info : TrackedOrder)
    (hside : info.side = Side.SELL) :
    mirror p info = ⟨Side.BUY, round2 (info.price - gridStep p),
      info.grid_level, info.quantity⟩ := by
  unfold mirror
  rw [hside]

theorem processFill_buy_fills (p : GridParams) (st : GridSt) (oid : OrderId)
    (info : TrackedOrder) (resp : Option OrderId)
    (hl : dictLookup st.grid_orders oid = some info) :
    (processFill p st oid resp).1.total_buy_fills =
      (if info.side = Side.BUY then st.total_buy_fills + 1
       else st.total_buy_fills) := by
  simp only [processFill, hl]
  split
  · simp [afterFillRemoval]
  · cases resp <;> simp [afterFillRemoval, trackReplacement]

theorem processFill_sell_fills (p : GridParams) (st : GridSt) (oid : OrderId)
    (info : TrackedOrder) (resp : Option OrderId)
    (hl : dictLookup st.grid_orders oid = some info) :
    (processFill p st oid resp).1.total_sell_fills =
      (if info.side = Side.SELL then st.total_sell_fills + 1
       else st.total_sell_fills) := by
  simp only [processFill, hl]
  split
  · simp [afterFillRemoval]
  · cases resp <;> simp [afterFillRemoval, trackReplacement]

theorem processFill_oob (p : GridParams) (st : GridSt) (oid : OrderId)
    (info : TrackedOrder) (resp : Option OrderId)
    (hl : dictLookup st.grid_orders oid = some info)
    (hob : outOfBounds p (mirror p info).price = true) :
    processFill p st oid resp = (afterFillRemoval st oid info, []) := by
  simp only [processFill, hl, hob, if_true]

theorem processFill_inb_some (p : GridParams) (st : GridSt) (oid nid : OrderId)
    (info : TrackedOrder)
    (hl : dictLookup st.grid_orders oid = some info)
    (hob : outOfBounds p (mirror p info).price = false) :
    processFill p st oid (some nid) =
      (trackReplacement (afterFillRemoval st oid info) nid (mirror p info),
       [mirrorCall p info]) := by
  simp only [processFill, hl, hob, Bool.false_eq_true, if_false]

theorem processFill_inb_none (p : GridParams) (st : GridSt) (oid : OrderId)
    (info : TrackedOrder)
    (hl : dictLookup st.grid_orders oid = some info)
    (hob : outOfBounds p (mirror p info).price = false) :
    processFill p st oid none = (afterFillRemoval st oid info, [mirrorCall p info]) := by
  simp only [processFill, hl, hob, Bool.false_eq_true, if_false]

/-- Claim C1 counterexample: with bounds 40000/50000 and 3 grids the step is
10000/3; the replacement for a BUY fill at 40000 is submitted at the
rounded price 43333.33, which provably differs from price + step, so the
mirror is not placed at exactly P + step. -/
theorem grid_mirror_unrounded_price_cex :
    (processFill thirdsGridParams thirdsSt 1 (some 2)).2 =
      [GatewayCall.createOrder "BTCUSDT" Side.SELL "LIMIT" 1
        (some ((4333333 : ℚ)/100))] ∧
    ((4333333 : ℚ)/100) ≠ (40000 : ℚ) + gridStep thirdsGridParams := by
  constructor
  · have hl : dictLookup thirdsSt.grid_orders 1 =
        some ⟨Side.BUY, 40000, 0, 1⟩ := rfl
    have hm : mirror thirdsGridParams (⟨Side.BUY, 40000, 0, 1⟩ : TrackedOrder) =
        ⟨Side.SELL, (4333333 : ℚ)/100, 0, 1⟩ := by
      rw [mirror_of_buy thirdsGridParams _ rfl]
      simp only
      rw [thirdsMirrorPrice]
    have hob : outOfBounds thirdsGridParams
        ((mirror thirdsGridParams (⟨Side.BUY, 40000, 0, 1⟩ : TrackedOrder)).price)
        = false := by
      rw [hm]
      simp only [outOfBounds, thirdsGridParams]
      norm_num
    rw [processFill_inb_some thirdsGridParams thirdsSt 1 2 _ hl hob]
    simp only [mirrorCall, hm]
    rfl
  · norm_num [gridStep, thirdsGridParams]

/-- Claim C1 (amended): for a tracked order detected as filled, the fill
counter of its side is incremented and the order is removed from the
tracker; the mirror of a BUY at price P is a SELL at round(P + step, 2)
and of a SELL a BUY at round(P - step, 2), preserving grid level and
quantity; if the rounded mirror price is out of bounds no create-order
call is issued and the tracker permanently shrinks by one order, otherwise
exactly one create-order call for the mirror is issued and, on success,
the mirror is tracked under the new order id. -/
theorem grid_fill_mirror_replacement (p : GridParams) (st : GridSt)
    (oid : OrderId) (info : TrackedOrder) (resp : Option OrderId)
    (hl : dictLookup st.grid_orders oid = some info) :
    (info.side = Side.BUY →
      mirror p info = ⟨Side.SELL, round2 (info.price + gridStep p),
        info.grid_level, info.quantity⟩ ∧
      (processFill p st oid resp).1.total_buy_fills = st.total_buy_fills + 1 ∧
      (processFill p st oid resp).1.total_sell_fills = st.total_sell_fills) ∧
    (info.side = Side.SELL →
      mirror p info = ⟨Side.BUY, round2 (info.price - gridStep p),
        info.grid_level, info.quantity⟩ ∧
      (processFill p st oid resp).1.total_sell_fills = st.total_sell_fills + 1 ∧
      (processFill p st oid resp).1.total_buy_fills = st.total_buy_fills) ∧
    (outOfBounds p (mirror p info).price = true →
      (processFill p st oid resp).2 = [] ∧
      (processFill p st oid resp).1.grid_orders = dictErase st.grid_orders oid ∧
      ((dictKeys st.grid_orders).Nodup →
        (processFill p st oid resp).1.grid_orders.length + 1 =
          st.grid_orders.length)) ∧
    (outOfBounds p (mirror p info).price = false →
      (processFill p st oid resp).2 = [GatewayCall.createOrder
        (pyUpper p.symbol) (mirror p info).side "LIMIT" (mirror p info).quantity
        (some (mirror p info).price)] ∧
      (∀ nid, resp = some nid →
        (processFill p st oid resp).1.grid_orders =
          dictInsert (dictErase st.grid_orders oid) nid (mirror p info)) ∧
      (resp = none →
        (processFill p st oid resp).1.grid_orders =
          dictErase st.grid_orders oid)) := by
  have hbuy : info.side = Side.BUY → info.side ≠ Side.SELL := by
    intro h hc
    rw [h] at hc
    exact Side.noConfusion hc
  have hsell : info.side = Side.SELL → info.side ≠ Side.BUY := by
    intro h hc
    rw [h] at hc
    exact Side.noConfusion hc
  refine ⟨?_, ?_, ?_, ?_⟩
  · intro hside
    refine ⟨mirror_of_buy p info hside, ?_, ?_⟩
    · rw [processFill_buy_fills p st oid info resp hl, if_pos hside]
    · rw [processFill_sell_fills p st oid info resp hl, if_neg (hbuy hside)]
  · intro hside
    refine ⟨mirror_of_sell p info hside, ?_, ?_⟩
    · rw [processFill_sell_fills p st oid info resp hl, if_pos hside]
    · rw [processFill_buy_fills p st oid info resp hl, if_neg (hsell hside)]
  · intro hob
    rw [processFill_oob p st oid info resp hl hob]
    refine ⟨rfl, rfl, ?_⟩
    intro hnd
    exact dictErase_length hnd (dictLookup_mem_keys hl)
  · intro hob
    cases resp with
    | none =>
      rw [processFill_inb_none p st oid info hl hob]
      exact ⟨rfl, fun nid hc => Option.noConfusion hc, fun _ => rfl⟩
    | some nid =>
      rw [processFill_inb_some p st oid nid info hl hob]
      refine ⟨rfl, ?_, fun hc => Option.noConfusion hc⟩
      intro nid2 hyp
      replace hyp := Option.some.inj hyp
      subst hyp
      rfl

theorem grid_fill_mirror_replacement_witness :
    dictLookup miniFillSt.grid_orders 3 =
      some (⟨Side.SELL, 200, 1, 1⟩ : TrackedOrder) ∧
    mirror miniGridParams (⟨Side.SELL, 200, 1, 1⟩ : TrackedOrder) =
      ⟨Side.BUY, round2 ((200 : ℚ) - gridStep miniGridParams), 1, 1⟩ := by
  have hl : dictLookup miniFillSt.grid_orders 3 =
      some (⟨Side.SELL, 200, 1, 1⟩ : TrackedOrder) := rfl
  exact ⟨hl, ((grid_fill_mirror_replacement miniGridParams miniFillSt 3
    (⟨Side.SELL, 200, 1, 1⟩ : TrackedOrder) (some 9) hl).2.1 rfl).1⟩

end TradingBot
